import Mathlib

/-!
Verification of the PageRank solver of
`src/openmp/serial_gs_pagerank_functions.c` (a damped power-method solver
with adaptive sparsification of converged pages).

The shallow embedding below models the OpenMP C code over exact rationals:
IEEE doubles become `ℚ` (the one place where IEEE special values matter,
the relative-change test, is embedded with its IEEE comparison behaviour
made explicit, see `pageConvergedTest`).  The `#pragma omp parallel for`
loops of the driver are data parallel over disjoint indices, so they are
embedded as their serial semantics (maps over `List.range n`); the two
barrier-separated phases of the sparsification round are kept as two
separate passes exactly as in the code.

The sparse-matrix kernels (`CooSparseMatrix`, `CsrSparseMatrix` and their
operations) live in a different file of the repository that is not part of
the sources given here; they are modelled from the specification (sections
3, 4.1 and 4.2) and each such definition carries a `Modelled from the
spec:` comment.
-/

/-- Element of a coordinate-form sparse matrix: a (value, row, column)
triple.  Mirrors the `CooSparseMatrixElement` structure used by
`addElement(&m, value, row, column)` in the C code. -/
structure CooElement where
  value : ℚ
  rowIndex : ℕ
  columnIndex : ℕ
deriving DecidableEq

/-- Modelled from the spec: the coordinate (builder) sparse matrix of
section 3 — an ordered sequence of triples, supporting append, duplicates
permitted and not merged. -/
structure CooSparseMatrix where
  elements : List CooElement
deriving DecidableEq

/-- Modelled from the spec: `createCoordinateMatrix` / `initCooSparseMatrix`
starts from an empty triple sequence (the capacity hint is a memory-layout
detail with no observable content). -/
def initCooSparseMatrix : CooSparseMatrix := ⟨[]⟩

/-- Modelled from the spec (section 4.1 `append`): appends one triple, no
dedup. -/
def addElement (m : CooSparseMatrix) (v : ℚ) (r c : ℕ) : CooSparseMatrix :=
  ⟨m.elements ++ [⟨v, r, c⟩]⟩

/-- Modelled from the spec (section 4.1 `transpose`): swaps the row and
column fields of every triple in place. -/
def transposeSparseMatrix (m : CooSparseMatrix) : CooSparseMatrix :=
  ⟨m.elements.map (fun e => ⟨e.value, e.columnIndex, e.rowIndex⟩)⟩

/-- Modelled from the spec (sections 3 and 4.1): the compressed, row-indexed
sparse matrix.  The row-pointer / column-index / value arrays define, for
every row, the sequence of its (column, value) entries; the embedding
stores exactly those per-row sequences.  Rows with no entries are the
empty list (row pointer equal to the next). -/
structure CsrSparseMatrix where
  rows : List (List (ℕ × ℚ))
deriving DecidableEq

/-- Modelled from the spec (section 4.1 `toCompressed` /
`transformToCSR`): groups the triples by row, tolerating empty rows. -/
def transformToCSR (m : CooSparseMatrix) (n : ℕ) : CsrSparseMatrix :=
  ⟨(List.range n).map (fun r =>
    (m.elements.filter (fun e => e.rowIndex == r)).map
      (fun e => (e.columnIndex, e.value)))⟩

/-- Modelled from the spec (section 4.1 `zeroRow`): marks all entries of
the row as logically absent from subsequent multiplication and iteration. -/
def zeroOutRow (m : CsrSparseMatrix) (r : ℕ) : CsrSparseMatrix :=
  ⟨m.rows.set r []⟩

/-- Modelled from the spec (section 4.1 `zeroColumn`): marks all entries
pointing to the column, across every row, as logically absent. -/
def zeroOutColumn (m : CsrSparseMatrix) (c : ℕ) : CsrSparseMatrix :=
  ⟨m.rows.map (fun row => row.filter (fun en => !(en.1 == c)))⟩

/-- Modelled from the spec (section 4.2 `compressedMatrixVectorProduct`):
for every row, the sum of value times input at the column index; rows with
no entries produce 0. -/
def csrSparseMatrixVectorMultiplication (m : CsrSparseMatrix) (v : List ℚ) :
    List ℚ :=
  m.rows.map (fun row => (row.map (fun en => en.2 * v.getD en.1 0)).sum)

/-- Modelled from the spec (section 4.2 `coordinateMatrixVectorProduct`):
for every triple (value, row, col), accumulate value times input[col] into
output[row]; the output has `n` slots. -/
def cooSparseMatrixVectorMultiplication (m : CooSparseMatrix) (v : List ℚ)
    (n : ℕ) : List ℚ :=
  (List.range n).map (fun r =>
    ((m.elements.filter (fun e => e.rowIndex == r)).map
      (fun e => e.value * v.getD e.columnIndex 0)).sum)

/-- `vectorNorm` (C lines 248-256): the first (L1) norm of a vector,
accumulated left to right as in the C loop. -/
def vectorNorm (v : List ℚ) : ℚ :=
  v.foldl (fun n x => n + |x|) 0

/-- `CONVERGENCE_CHECK_ITERATION_PERIOD` (C line 18). -/
def CONVERGENCE_CHECK_ITERATION_PERIOD : ℕ := 3

/-- `SPARSITY_INCREASE_ITERATION_PERIOD` (C line 19). -/
def SPARSITY_INCREASE_ITERATION_PERIOD : ℕ := 3

/-- The fields of the C `Parameters` structure that the solver reads or
writes (the I/O-only fields — verbose, history, file names — carry no
algorithmic content and are omitted). -/
structure Parameters where
  numberOfPages : ℕ
  maxIterations : ℕ
  convergenceCriterion : ℚ
  dampingFactor : ℚ
  realIterations : ℕ
deriving DecidableEq

/-- `calculateNextPagerank` (C lines 219-243): multiply the compressed
transition matrix with the previous vector, scale by the damping factor,
then add the halved uniform mass correction `0.5 * normDifference *
webUniformProbability` plus the links-from-converged-pages vector plus the
converged-pages vector, where
`normDifference = vectorNorm previous - vectorNorm scaled`. -/
def calculateNextPagerank (transitionMatrix : CsrSparseMatrix)
    (previousPagerankVector : List ℚ)
    (linksFromConvergedPagesPagerankVector convergedPagerankVector : List ℚ)
    (vectorSize : ℕ) (dampingFactor : ℚ) : List ℚ :=
  let scaled := (csrSparseMatrixVectorMultiplication transitionMatrix
      previousPagerankVector).map (fun x => dampingFactor * x)
  let normDifference := vectorNorm previousPagerankVector - vectorNorm scaled
  (List.range vectorSize).map (fun i =>
    scaled.getD i 0
      + (1/2) * normDifference * (1 / (vectorSize : ℚ))
      + linksFromConvergedPagesPagerankVector.getD i 0
      + convergedPagerankVector.getD i 0)

/-- The mutable state of the `pagerank` driver (C lines 23-174): the
compressed transition matrix, the rank vectors, the per-page convergence
flags and the correction structures. -/
structure PagerankState where
  transitionMatrix : CsrSparseMatrix
  pagerankVector : List ℚ
  previousPagerankVector : List ℚ
  convergenceStatus : Bool
  convergenceMatrix : List Bool
  convergedPagerankVector : List ℚ
  linksFromConvergedPages : CooSparseMatrix
  linksFromConvergedPagesPagerankVector : List ℚ
  iterations : ℕ
deriving DecidableEq

/-- The per-page relative-change test of C lines 104-108:
`fabs(current[i]-previous[i]) / fabs(previous[i]) < criterion`.
In the C code the quantities are IEEE doubles: when `previous[i] = 0` the
division yields Inf (or NaN when the numerator is also 0) and the `<`
comparison is false either way, so the page is not marked; the embedding
into `ℚ` makes that IEEE comparison behaviour explicit. -/
def pageConvergedTest (current previous criterion : ℚ) : Bool :=
  if previous = 0 then false
  else decide (|current - previous| / |previous| < criterion)

/-- First phase of the sparsification round (C lines 102-114): which pages
are newly converged this round.  In the C parallel loop each index reads
and writes only its own slot of `convergenceMatrix`, so the flags read are
the pre-round flags. -/
def sparsifyNewlyConverged (st : PagerankState) (criterion : ℚ) (n : ℕ) :
    List Bool :=
  (List.range n).map (fun i =>
    !(st.convergenceMatrix.getD i false) &&
      pageConvergedTest (st.pagerankVector.getD i 0)
        (st.previousPagerankVector.getD i 0) criterion)

/-- Marking part of the first sparsification phase (C lines 111-112): set
the convergence flag of every newly converged page and snapshot its
current rank into the converged-rank vector. -/
def sparsifyMarkPhase (st : PagerankState) (newly : List Bool) (n : ℕ) :
    PagerankState :=
  { st with
    convergenceMatrix := (List.range n).map (fun i =>
      st.convergenceMatrix.getD i false || newly.getD i false),
    convergedPagerankVector := (List.range n).map (fun i =>
      if newly.getD i false then st.pagerankVector.getD i 0
      else st.convergedPagerankVector.getD i 0) }

/-- Body of the second sparsification phase for one newly converged page
(C lines 118-144): copy this page's out-links to still-unconverged pages
into the correction matrix, zero out the page's row and column, and
recompute the full correction vector. -/
def sparsifyProcessPage (st : PagerankState) (n : ℕ) (i : ℕ) :
    PagerankState :=
  let row := st.transitionMatrix.rows.getD i []
  let coo := row.foldl (fun coo en =>
      if st.convergenceMatrix.getD en.1 false = false then
        addElement coo en.2 i en.1
      else coo)
    st.linksFromConvergedPages
  { st with
    linksFromConvergedPages := coo,
    transitionMatrix := zeroOutColumn (zeroOutRow st.transitionMatrix i) i,
    linksFromConvergedPagesPagerankVector :=
      cooSparseMatrixVectorMultiplication coo st.pagerankVector n }

/-- Second phase of the sparsification round (C lines 115-145): process
each newly converged page in index order.  The convergence flags read by
`sparsifyProcessPage` are those written by the completed first phase. -/
def sparsifyRemovePhase (st : PagerankState) (newly : List Bool) (n : ℕ) :
    PagerankState :=
  (List.range n).foldl (fun s i =>
    if newly.getD i false then sparsifyProcessPage s n i else s) st

/-- The per-index difference `current - previous` built at C lines 85-88
before the global convergence check. -/
def pagerankDifferenceVector (current previous : List ℚ) (n : ℕ) : List ℚ :=
  (List.range n).map (fun i => current.getD i 0 - previous.getD i 0)

/-- The first half of one loop body (C lines 66-96): snapshot the previous
vector, compute the next vector, and run the periodic global convergence
check. -/
def checkedState (p : Parameters) (st0 : PagerankState) : PagerankState :=
  let n := p.numberOfPages
  let st1 := { st0 with previousPagerankVector := st0.pagerankVector }
  let nextVector :=
    calculateNextPagerank st1.transitionMatrix st1.previousPagerankVector
      st1.linksFromConvergedPagesPagerankVector st1.convergedPagerankVector
      n p.dampingFactor
  let st2 := { st1 with pagerankVector := nextVector }
  if st2.iterations % CONVERGENCE_CHECK_ITERATION_PERIOD = 0 then
    if vectorNorm (pagerankDifferenceVector st2.pagerankVector
        st2.previousPagerankVector n) < p.convergenceCriterion then
      { st2 with convergenceStatus := true }
    else st2
  else st2

/-- One body of the `do { ... } while` loop of `pagerank` (C lines 66-155):
the first half (`checkedState`), then the periodic sparsification round,
then the iteration-counter increment. -/
def pagerankIteration (p : Parameters) (st0 : PagerankState) :
    PagerankState :=
  let n := p.numberOfPages
  let st3 := checkedState p st0
  let st4 :=
    if st3.iterations ≠ 0 ∧
        st3.iterations % SPARSITY_INCREASE_ITERATION_PERIOD = 0 then
      let newly := sparsifyNewlyConverged st3 p.convergenceCriterion n
      sparsifyRemovePhase (sparsifyMarkPhase st3 newly n) newly n
    else st3
  { st4 with iterations := st4.iterations + 1 }

/-- The `do { ... } while (!*convergenceStatus && (maxIterations == 0 ||
iterations < maxIterations))` loop of C lines 66-157.  `fuel` bounds the
number of body executions (the C loop may not terminate when
`maxIterations = 0`); with `maxIterations = m > 0` any `fuel ≥ m`
reproduces the C loop exactly. -/
def pagerankLoop (p : Parameters) : ℕ → PagerankState → PagerankState
  | 0, st => st
  | fuel + 1, st =>
    let st2 := pagerankIteration p st
    if st2.convergenceStatus = false ∧
        (p.maxIterations = 0 ∨ st2.iterations < p.maxIterations) then
      pagerankLoop p fuel st2
    else st2

/-- The initial driver state set up at C lines 50-59: status false, flags
all false, converged-rank and correction vectors all zero, empty
correction matrix.  `previousPagerankVector` is allocated uninitialized in
C and is overwritten at the top of every loop body before any read; it is
initialised to zeros here. -/
def initialState (n : ℕ) (tm : CsrSparseMatrix) (v : List ℚ) :
    PagerankState :=
  { transitionMatrix := tm
    pagerankVector := v
    previousPagerankVector := List.replicate n 0
    convergenceStatus := false
    convergenceMatrix := List.replicate n false
    convergedPagerankVector := List.replicate n 0
    linksFromConvergedPages := initCooSparseMatrix
    linksFromConvergedPagesPagerankVector := List.replicate n 0
    iterations := 0 }

/-- `pagerank` (C lines 23-174).  The C function receives `Parameters`
BY VALUE, so the assignment `parameters.realIterations = iterations`
(line 158) acts on the callee's local copy; the embedding returns that
local copy as the second component together with the final state and the
`return iterations` value.  The parameters record observable by the caller
is the (immutable) argument `p` itself. -/
def pagerank (tm : CsrSparseMatrix) (v : List ℚ) (p : Parameters)
    (fuel : ℕ) : PagerankState × Parameters × ℕ :=
  let final := pagerankLoop p fuel (initialState p.numberOfPages tm v)
  (final, { p with realIterations := final.iterations }, final.iterations)

/-- `maxPageIndex` accumulation of C lines 400-415: the largest page index
appearing in the edge list, starting from 0. -/
def maxPageIndex (edges : List (ℕ × ℕ)) : ℕ :=
  edges.foldl (fun m e => max (max m e.1) e.2) 0

/-- `pageOutdegree` (C lines 427-441): the number of stored triples whose
row is the given page, i.e. the number of edges (duplicates included) with
that page as source. -/
def pageOutdegree (edges : List (ℕ × ℕ)) (page : ℕ) : ℕ :=
  (edges.filter (fun e => e.1 == page)).length

/-- The temporary coordinate matrix of C lines 401-417: one triple of
value 1 per edge, in file order. -/
def tempFromEdges (edges : List (ℕ × ℕ)) : CooSparseMatrix :=
  edges.foldl (fun m e => addElement m 1 e.1 e.2) initCooSparseMatrix

/-- The reweighting loop of C lines 443-445: every triple's value becomes
1 over the out-degree of its row. -/
def weightedTemp (edges : List (ℕ × ℕ)) : CooSparseMatrix :=
  ⟨(tempFromEdges edges).elements.map (fun e =>
    { e with value := 1 / (pageOutdegree edges e.rowIndex : ℚ) })⟩

/-- `generateNormalizedTransitionMatrixFromFile` (C lines 333-456) minus
the file parsing: build the edge triples, set `numberOfPages` to
`maxPageIndex + 1`, weight each triple by 1 over its source out-degree,
transpose, and convert to the compressed form.  Returns the stored matrix
and `numberOfPages`. -/
def generateNormalizedTransitionMatrix (edges : List (ℕ × ℕ)) :
    CsrSparseMatrix × ℕ :=
  let n := maxPageIndex edges + 1
  (transformToCSR (transposeSparseMatrix (weightedTemp edges)) n, n)

/-- The solver setup of C `initialize` (lines 181-211) minus console I/O:
build the transition matrix (which sets `numberOfPages`), reset
`realIterations` to 0, and create the uniform initial pagerank vector. -/
def initSolver (edges : List (ℕ × ℕ)) (p : Parameters) :
    CsrSparseMatrix × List ℚ × Parameters :=
  let g := generateNormalizedTransitionMatrix edges
  let p1 := { p with numberOfPages := g.2, realIterations := 0 }
  (g.1, List.replicate p1.numberOfPages (1 / (p1.numberOfPages : ℚ)), p1)

/-- Sum of the stored values of one row of a compressed matrix. -/
def csrRowSum (m : CsrSparseMatrix) (r : ℕ) : ℚ :=
  ((m.rows.getD r []).map (fun en => en.2)).sum

/-- Sum of the stored values of one column of a compressed matrix. -/
def csrColumnSum (m : CsrSparseMatrix) (c : ℕ) : ℚ :=
  (m.rows.map (fun row =>
    ((row.filter (fun en => en.1 == c)).map (fun en => en.2)).sum)).sum

/-! ### Concrete inputs used by counterexamples and witnesses -/

/-- A two-page graph with the single edge 0 → 1 (the dangling-page graph
of end-to-end scenario B of the spec). -/
def exampleEdges : List (ℕ × ℕ) := [(0, 1)]

/-- A caller-side parameters record before `initialize`: one-iteration cap,
tolerance 1/4, damping factor 0.85; `realIterations` starts at a junk
value that `initialize` resets. -/
def exampleParams0 : Parameters :=
  { numberOfPages := 0, maxIterations := 1, convergenceCriterion := 1/4,
    dampingFactor := 17/20, realIterations := 5 }

/-- The solver inputs produced by `initSolver` on the example graph. -/
def exampleInit := initSolver exampleEdges exampleParams0

/-- A three-page graph where page 0 links to pages 1 and 2. -/
def fanOutEdges : List (ℕ × ℕ) := [(0, 1), (0, 2)]


/-- A concrete parameters record used by witnesses. -/
def witnessParams : Parameters :=
  { numberOfPages := 2, maxIterations := 1, convergenceCriterion := 1/4,
    dampingFactor := 17/20, realIterations := 0 }

/-- The stored transition matrix of the example graph `exampleEdges`. -/
def witnessMatrix : CsrSparseMatrix := ⟨[[], [(0, 1)]]⟩

/-- The uniform two-page starting vector. -/
def witnessVector : List ℚ := [1/2, 1/2]

/-- The driver state at the start of the example run. -/
def witnessState : PagerankState := initialState 2 witnessMatrix witnessVector

/-- A parameters record for a sparsification-round witness. -/
def witnessParamsB : Parameters :=
  { numberOfPages := 2, maxIterations := 0, convergenceCriterion := 10,
    dampingFactor := 17/20, realIterations := 0 }

/-- A mid-run driver state sitting at iteration 3 (a sparsification round)
whose page 0 has rank 0. -/
def witnessStateB : PagerankState :=
  { transitionMatrix := ⟨[[], []]⟩
    pagerankVector := [0, 1/2]
    previousPagerankVector := [0, 1/2]
    convergenceStatus := false
    convergenceMatrix := [false, false]
    convergedPagerankVector := [0, 0]
    linksFromConvergedPages := ⟨[⟨1, 0, 1⟩]⟩
    linksFromConvergedPagesPagerankVector := [0, 0]
    iterations := 3 }


/-- The vector computed by the `calculateNextPagerank` call of one loop
body (C lines 71-74): the previous vector is the snapshot of the current
one taken at the top of the body. -/
def nextPagerankVector (p : Parameters) (st : PagerankState) : List ℚ :=
  calculateNextPagerank st.transitionMatrix st.pagerankVector
    st.linksFromConvergedPagesPagerankVector st.convergedPagerankVector
    p.numberOfPages p.dampingFactor

/-! ### Helper lemmas -/

lemma abs_ite (q : ℚ) : |q| = if 0 ≤ q then q else -q := by
  rcases le_or_lt 0 q with h | h
  · rw [abs_of_nonneg h, if_pos h]
  · rw [abs_of_neg h, if_neg (not_le.mpr h)]

lemma getD_range_map {α : Type} (f : ℕ → α) (n i : ℕ) (d : α) (hi : i < n) :
    ((List.range n).map f).getD i d = f i := by
  rw [List.getD_eq_getElem?_getD, List.getElem?_map, List.getElem?_range hi]
  rfl

lemma getD_map_mul (d : ℚ) (l : List ℚ) (i : ℕ) :
    (l.map (fun x => d * x)).getD i 0 = d * l.getD i 0 := by
  rw [List.getD_eq_getElem?_getD, List.getD_eq_getElem?_getD, List.getElem?_map]
  cases l[i]? with
  | none => simp
  | some a => rfl

lemma sparsifyProcessPage_preserves (st : PagerankState) (n i : ℕ) :
    (sparsifyProcessPage st n i).convergenceStatus = st.convergenceStatus ∧
    (sparsifyProcessPage st n i).convergenceMatrix = st.convergenceMatrix ∧
    (sparsifyProcessPage st n i).pagerankVector = st.pagerankVector ∧
    (sparsifyProcessPage st n i).previousPagerankVector
      = st.previousPagerankVector ∧
    (sparsifyProcessPage st n i).convergedPagerankVector
      = st.convergedPagerankVector ∧
    (sparsifyProcessPage st n i).iterations = st.iterations := by
  simp [sparsifyProcessPage]

lemma sparsifyRemoveFold_preserves (l : List ℕ) (newly : List Bool) (n : ℕ)
    (st : PagerankState) :
    (l.foldl (fun s i => if newly.getD i false then sparsifyProcessPage s n i
      else s) st).convergenceStatus = st.convergenceStatus ∧
    (l.foldl (fun s i => if newly.getD i false then sparsifyProcessPage s n i
      else s) st).convergenceMatrix = st.convergenceMatrix ∧
    (l.foldl (fun s i => if newly.getD i false then sparsifyProcessPage s n i
      else s) st).pagerankVector = st.pagerankVector ∧
    (l.foldl (fun s i => if newly.getD i false then sparsifyProcessPage s n i
      else s) st).previousPagerankVector = st.previousPagerankVector ∧
    (l.foldl (fun s i => if newly.getD i false then sparsifyProcessPage s n i
      else s) st).convergedPagerankVector = st.convergedPagerankVector ∧
    (l.foldl (fun s i => if newly.getD i false then sparsifyProcessPage s n i
      else s) st).iterations = st.iterations := by
  induction l generalizing st with
  | nil => simp
  | cons a l ih =>
    simp only [List.foldl_cons]
    by_cases h : newly.getD a false
    · simp only [h, if_true]
      have hp := sparsifyProcessPage_preserves st n a
      have hi := ih (sparsifyProcessPage st n a)
      exact ⟨hi.1.trans hp.1, hi.2.1.trans hp.2.1, hi.2.2.1.trans hp.2.2.1,
        hi.2.2.2.1.trans hp.2.2.2.1, hi.2.2.2.2.1.trans hp.2.2.2.2.1,
        hi.2.2.2.2.2.trans hp.2.2.2.2.2⟩
    · simp only [h, if_false]
      exact ih st

lemma sparsifyRemovePhase_preserves (st : PagerankState) (newly : List Bool)
    (n : ℕ) :
    (sparsifyRemovePhase st newly n).convergenceStatus
      = st.convergenceStatus ∧
    (sparsifyRemovePhase st newly n).convergenceMatrix
      = st.convergenceMatrix ∧
    (sparsifyRemovePhase st newly n).pagerankVector = st.pagerankVector ∧
    (sparsifyRemovePhase st newly n).previousPagerankVector
      = st.previousPagerankVector ∧
    (sparsifyRemovePhase st newly n).convergedPagerankVector
      = st.convergedPagerankVector ∧
    (sparsifyRemovePhase st newly n).iterations = st.iterations :=
  sparsifyRemoveFold_preserves (List.range n) newly n st


lemma pagerankIteration_pagerankVector (p : Parameters) (st : PagerankState) :
    (pagerankIteration p st).pagerankVector =
      calculateNextPagerank st.transitionMatrix st.pagerankVector
        st.linksFromConvergedPagesPagerankVector st.convergedPagerankVector
        p.numberOfPages p.dampingFactor := by
  simp [pagerankIteration, checkedState, apply_ite (fun s : PagerankState => s.iterations),
    apply_ite (fun s : PagerankState => s.pagerankVector),
    sparsifyRemovePhase_preserves, sparsifyMarkPhase]

lemma pagerankIteration_iterations (p : Parameters) (st : PagerankState) :
    (pagerankIteration p st).iterations = st.iterations + 1 := by
  simp [pagerankIteration, checkedState, apply_ite (fun s : PagerankState => s.iterations),
    sparsifyRemovePhase_preserves, sparsifyMarkPhase]

lemma pagerankIteration_previousPagerankVector (p : Parameters)
    (st : PagerankState) :
    (pagerankIteration p st).previousPagerankVector = st.pagerankVector := by
  simp [pagerankIteration, checkedState, apply_ite (fun s : PagerankState => s.iterations),
    apply_ite (fun s : PagerankState => s.previousPagerankVector),
    sparsifyRemovePhase_preserves, sparsifyMarkPhase]

lemma pagerankIteration_convergenceStatus (p : Parameters)
    (st : PagerankState) :
    (pagerankIteration p st).convergenceStatus =
      if st.iterations % CONVERGENCE_CHECK_ITERATION_PERIOD = 0 ∧
          vectorNorm (pagerankDifferenceVector
            (calculateNextPagerank st.transitionMatrix st.pagerankVector
              st.linksFromConvergedPagesPagerankVector
              st.convergedPagerankVector p.numberOfPages p.dampingFactor)
            st.pagerankVector p.numberOfPages) < p.convergenceCriterion then
        true
      else st.convergenceStatus := by
  simp [pagerankIteration, checkedState, apply_ite (fun s : PagerankState => s.iterations),
    apply_ite (fun s : PagerankState => s.convergenceStatus),
    sparsifyRemovePhase_preserves, sparsifyMarkPhase, ite_and]

lemma pagerankIteration_convergenceMatrix_nonsparsify (p : Parameters)
    (st : PagerankState)
    (h : ¬(st.iterations ≠ 0 ∧
      st.iterations % SPARSITY_INCREASE_ITERATION_PERIOD = 0)) :
    (pagerankIteration p st).convergenceMatrix = st.convergenceMatrix := by
  simp only [pagerankIteration, checkedState]
  simp only [apply_ite (fun s : PagerankState => s.iterations),
    apply_ite (fun s : PagerankState => s.convergenceMatrix)]
  simp [h]

lemma pagerankIteration_convergedPagerankVector_nonsparsify (p : Parameters)
    (st : PagerankState)
    (h : ¬(st.iterations ≠ 0 ∧
      st.iterations % SPARSITY_INCREASE_ITERATION_PERIOD = 0)) :
    (pagerankIteration p st).convergedPagerankVector
      = st.convergedPagerankVector := by
  simp only [pagerankIteration, checkedState]
  simp only [apply_ite (fun s : PagerankState => s.iterations),
    apply_ite (fun s : PagerankState => s.convergedPagerankVector)]
  simp [h]

lemma pagerankIteration_convergenceMatrix_sparsify (p : Parameters)
    (st : PagerankState) (i : ℕ)
    (h1 : st.iterations ≠ 0)
    (h2 : st.iterations % SPARSITY_INCREASE_ITERATION_PERIOD = 0)
    (hi : i < p.numberOfPages) :
    (pagerankIteration p st).convergenceMatrix.getD i false =
      (st.convergenceMatrix.getD i false ||
        (!(st.convergenceMatrix.getD i false) &&
          pageConvergedTest
            ((calculateNextPagerank st.transitionMatrix st.pagerankVector
              st.linksFromConvergedPagesPagerankVector
              st.convergedPagerankVector p.numberOfPages
              p.dampingFactor).getD i 0)
            (st.pagerankVector.getD i 0) p.convergenceCriterion)) := by
  simp [pagerankIteration, checkedState, apply_ite (fun s : PagerankState => s.iterations),
    apply_ite (fun s : PagerankState => s.convergenceMatrix),
    apply_ite (fun s : PagerankState => s.pagerankVector),
    apply_ite (fun s : PagerankState => s.previousPagerankVector),
    sparsifyRemovePhase_preserves, sparsifyMarkPhase, sparsifyNewlyConverged,
    h1, h2, List.getElem?_range hi]

lemma pagerankIteration_convergedPagerankVector_sparsify (p : Parameters)
    (st : PagerankState) (i : ℕ)
    (h1 : st.iterations ≠ 0)
    (h2 : st.iterations % SPARSITY_INCREASE_ITERATION_PERIOD = 0)
    (hi : i < p.numberOfPages) :
    (pagerankIteration p st).convergedPagerankVector.getD i 0 =
      if (!(st.convergenceMatrix.getD i false) &&
          pageConvergedTest
            ((calculateNextPagerank st.transitionMatrix st.pagerankVector
              st.linksFromConvergedPagesPagerankVector
              st.convergedPagerankVector p.numberOfPages
              p.dampingFactor).getD i 0)
            (st.pagerankVector.getD i 0) p.convergenceCriterion) then
        (calculateNextPagerank st.transitionMatrix st.pagerankVector
          st.linksFromConvergedPagesPagerankVector
          st.convergedPagerankVector p.numberOfPages p.dampingFactor).getD i 0
      else st.convergedPagerankVector.getD i 0 := by
  simp [pagerankIteration, checkedState, apply_ite (fun s : PagerankState => s.iterations),
    apply_ite (fun s : PagerankState => s.convergedPagerankVector),
    apply_ite (fun s : PagerankState => s.pagerankVector),
    apply_ite (fun s : PagerankState => s.previousPagerankVector),
    apply_ite (fun s : PagerankState => s.convergenceMatrix),
    sparsifyRemovePhase_preserves, sparsifyMarkPhase, sparsifyNewlyConverged,
    h1, h2, List.getElem?_range hi]

lemma optionGetD_map_mul (d : ℚ) (o : Option ℚ) :
    (Option.map (fun x => d * x) o).getD 0 = d * o.getD 0 := by
  cases o <;> simp

/-- Claim C2: in every iteration the updated rank of each page `i` equals
`dampingFactor * raw[i] + 0.5 * normDifference * (1/numberOfPages) +
correctionVector[i] + convergedRankVector[i]`, where `raw` is the
compressed matrix-vector product of the transition matrix with the
previous vector, `scaled = dampingFactor * raw`, and `normDifference` is
the L1 norm of the previous vector minus the L1 norm of the scaled
vector. -/
theorem calculateNextPagerank_update_formula (p : Parameters)
    (st : PagerankState) (i : ℕ) (hi : i < p.numberOfPages) :
    (pagerankIteration p st).pagerankVector.getD i 0 =
      p.dampingFactor * (csrSparseMatrixVectorMultiplication
          st.transitionMatrix st.pagerankVector).getD i 0
        + (1/2) * (vectorNorm st.pagerankVector
            - vectorNorm ((csrSparseMatrixVectorMultiplication
                st.transitionMatrix st.pagerankVector).map
                  (fun x => p.dampingFactor * x)))
          * (1 / (p.numberOfPages : ℚ))
        + st.linksFromConvergedPagesPagerankVector.getD i 0
        + st.convergedPagerankVector.getD i 0 := by
  rw [pagerankIteration_pagerankVector]
  simp [calculateNextPagerank, List.getElem?_range hi, optionGetD_map_mul]

/-- Witness for C2 at a concrete input. -/
theorem calculateNextPagerank_update_formula_witness :
    0 < witnessParams.numberOfPages ∧
    (pagerankIteration witnessParams witnessState).pagerankVector.getD 0 0 =
      witnessParams.dampingFactor * (csrSparseMatrixVectorMultiplication
          witnessState.transitionMatrix witnessState.pagerankVector).getD 0 0
        + (1/2) * (vectorNorm witnessState.pagerankVector
            - vectorNorm ((csrSparseMatrixVectorMultiplication
                witnessState.transitionMatrix witnessState.pagerankVector).map
                  (fun x => witnessParams.dampingFactor * x)))
          * (1 / (witnessParams.numberOfPages : ℚ))
        + witnessState.linksFromConvergedPagesPagerankVector.getD 0 0
        + witnessState.convergedPagerankVector.getD 0 0 :=
  ⟨by norm_num [witnessParams],
    calculateNextPagerank_update_formula witnessParams witnessState 0
      (by norm_num [witnessParams])⟩

/-- Claim C4: the loop continues exactly while global convergence has not
been declared and (`maxIterations = 0` or the completed-iteration count is
below `maxIterations`); with `maxIterations = 1` the solver performs
exactly one iteration regardless of the tolerance and returns an
iteration count of 1. -/
theorem pagerankLoop_guard (p : Parameters) (st : PagerankState) (f : ℕ)
    (tm : CsrSparseMatrix) (v : List ℚ) :
    (pagerankLoop p (f + 1) st =
      if (pagerankIteration p st).convergenceStatus = false ∧
          (p.maxIterations = 0 ∨
            (pagerankIteration p st).iterations < p.maxIterations) then
        pagerankLoop p f (pagerankIteration p st)
      else pagerankIteration p st) ∧
    (p.maxIterations = 1 → st.iterations = 0 →
      pagerankLoop p (f + 1) st = pagerankIteration p st ∧
      (pagerankLoop p (f + 1) st).iterations = 1) ∧
    (p.maxIterations = 1 → (pagerank tm v p (f + 1)).2.2 = 1) := by
  have hguard : pagerankLoop p (f + 1) st =
      if (pagerankIteration p st).convergenceStatus = false ∧
          (p.maxIterations = 0 ∨
            (pagerankIteration p st).iterations < p.maxIterations) then
        pagerankLoop p f (pagerankIteration p st)
      else pagerankIteration p st := rfl
  have hone : ∀ st2 : PagerankState, st2.iterations = 0 →
      p.maxIterations = 1 →
      pagerankLoop p (f + 1) st2 = pagerankIteration p st2 ∧
      (pagerankLoop p (f + 1) st2).iterations = 1 := by
    intro st2 h0 hm
    have hiter := pagerankIteration_iterations p st2
    rw [h0] at hiter
    have : pagerankLoop p (f + 1) st2 = pagerankIteration p st2 := by
      simp [pagerankLoop, hm, hiter]
    exact ⟨this, by rw [this, hiter]⟩
  refine ⟨hguard, fun hm h0 => hone st h0 hm, fun hm => ?_⟩
  have h0 : (initialState p.numberOfPages tm v).iterations = 0 := rfl
  have := (hone (initialState p.numberOfPages tm v) h0 hm).2
  simp only [pagerank]
  rw [this]

/-- Witness for C4 at a concrete input. -/
theorem pagerankLoop_guard_witness :
    witnessParams.maxIterations = 1 ∧ witnessState.iterations = 0 ∧
    (pagerankLoop witnessParams 1 witnessState).iterations = 1 := by
  refine ⟨rfl, rfl, ?_⟩
  exact (((pagerankLoop_guard witnessParams witnessState 0 witnessMatrix
    witnessVector).2.1) rfl rfl).2

/-- Claim C5: on every iteration `t` with `t mod 3 = 0` the controller
declares global convergence exactly when the L1 norm of the difference
between the current and previous pagerank vectors is strictly below the
tolerance; on iterations with `t mod 3 ≠ 0` the (false) global status is
unchanged.  The hypothesis `convergenceStatus = false` is the loop
invariant of the driver: the loop only continues while the status is
false. -/
theorem convergenceCheck_period_status (p : Parameters)
    (st : PagerankState) (hs : st.convergenceStatus = false) :
    ((pagerankIteration p st).convergenceStatus = true ↔
      (st.iterations % CONVERGENCE_CHECK_ITERATION_PERIOD = 0 ∧
        vectorNorm (pagerankDifferenceVector
          (calculateNextPagerank st.transitionMatrix st.pagerankVector
            st.linksFromConvergedPagesPagerankVector
            st.convergedPagerankVector p.numberOfPages p.dampingFactor)
          st.pagerankVector p.numberOfPages) < p.convergenceCriterion)) := by
  rw [pagerankIteration_convergenceStatus]
  split
  · next h => simp [h]
  · next h => simp [hs, h]

/-- Witness for C5 at a concrete input. -/
theorem convergenceCheck_period_status_witness :
    witnessState.convergenceStatus = false ∧
    ((pagerankIteration witnessParams witnessState).convergenceStatus = true ↔
      (witnessState.iterations % CONVERGENCE_CHECK_ITERATION_PERIOD = 0 ∧
        vectorNorm (pagerankDifferenceVector
          (calculateNextPagerank witnessState.transitionMatrix
            witnessState.pagerankVector
            witnessState.linksFromConvergedPagesPagerankVector
            witnessState.convergedPagerankVector witnessParams.numberOfPages
            witnessParams.dampingFactor)
          witnessState.pagerankVector witnessParams.numberOfPages)
          < witnessParams.convergenceCriterion)) :=
  ⟨rfl, convergenceCheck_period_status witnessParams witnessState rfl⟩

/-- Claim C7: a page whose previous rank is 0 is treated as not converged
in the relative-change test: its convergence flag and its converged-rank
entry are unchanged by the iteration (in the C code the division produces
Inf or NaN whose comparison with the tolerance is false, so no NaN or Inf
reaches the flags or the converged-rank vector; in the embedding that
comparison behaviour is the `previous = 0` case of `pageConvergedTest`). -/
theorem zero_previous_not_converged (p : Parameters) (st : PagerankState)
    (i : ℕ) (hi : i < p.numberOfPages)
    (hprev : st.pagerankVector.getD i 0 = 0) :
    (pagerankIteration p st).convergenceMatrix.getD i false =
      st.convergenceMatrix.getD i false ∧
    (pagerankIteration p st).convergedPagerankVector.getD i 0 =
      st.convergedPagerankVector.getD i 0 := by
  by_cases h : st.iterations ≠ 0 ∧
      st.iterations % SPARSITY_INCREASE_ITERATION_PERIOD = 0
  · rw [List.getD_eq_getElem?_getD] at hprev
    rw [pagerankIteration_convergenceMatrix_sparsify p st i h.1 h.2 hi,
      pagerankIteration_convergedPagerankVector_sparsify p st i h.1 h.2 hi]
    simp [pageConvergedTest, hprev]
  · rw [pagerankIteration_convergenceMatrix_nonsparsify p st h,
      pagerankIteration_convergedPagerankVector_nonsparsify p st h]
    exact ⟨rfl, rfl⟩

/-- Witness for C7 at a concrete input: a state whose page 1 has previous
rank 0. -/
theorem zero_previous_not_converged_witness :
    (0 : ℕ) < witnessParamsB.numberOfPages ∧
    witnessStateB.pagerankVector.getD 0 0 = 0 ∧
    ((pagerankIteration witnessParamsB witnessStateB).convergenceMatrix.getD
        0 false = witnessStateB.convergenceMatrix.getD 0 false ∧
      (pagerankIteration witnessParamsB
        witnessStateB).convergedPagerankVector.getD 0 0 =
        witnessStateB.convergedPagerankVector.getD 0 0) :=
  ⟨by norm_num [witnessParamsB], by norm_num [witnessStateB],
    zero_previous_not_converged witnessParamsB witnessStateB 0
      (by norm_num [witnessParamsB]) (by norm_num [witnessStateB])⟩

/-- Claim C6: on every iteration `t` with `t > 0` and `t mod 3 = 0`, every
page not yet marked converged whose relative change passes the strict
tolerance test is marked converged with its current rank snapshotted into
the converged-rank vector (and exactly those pages are marked); on every
other iteration no page is marked converged. -/
theorem sparsification_marks_below_tolerance (p : Parameters)
    (st : PagerankState) (i : ℕ) (hi : i < p.numberOfPages) :
    ((st.iterations ≠ 0 ∧
        st.iterations % SPARSITY_INCREASE_ITERATION_PERIOD = 0) →
      ((pagerankIteration p st).convergenceMatrix.getD i false =
          (st.convergenceMatrix.getD i false ||
            (!(st.convergenceMatrix.getD i false) &&
              pageConvergedTest ((nextPagerankVector p st).getD i 0)
                (st.pagerankVector.getD i 0) p.convergenceCriterion)) ∧
        (st.convergenceMatrix.getD i false = false →
          pageConvergedTest ((nextPagerankVector p st).getD i 0)
              (st.pagerankVector.getD i 0) p.convergenceCriterion = true →
          (pagerankIteration p st).convergedPagerankVector.getD i 0 =
            (nextPagerankVector p st).getD i 0))) ∧
    (¬(st.iterations ≠ 0 ∧
        st.iterations % SPARSITY_INCREASE_ITERATION_PERIOD = 0) →
      (pagerankIteration p st).convergenceMatrix =
        st.convergenceMatrix) := by
  constructor
  · intro h
    constructor
    · simp only [nextPagerankVector]
      exact pagerankIteration_convergenceMatrix_sparsify p st i h.1 h.2 hi
    · intro hflag htest
      simp only [nextPagerankVector] at htest ⊢
      rw [pagerankIteration_convergedPagerankVector_sparsify p st i h.1
        h.2 hi]
      rw [List.getD_eq_getElem?_getD] at hflag
      simp only [List.getD_eq_getElem?_getD] at htest
      simp [hflag, htest]
  · exact fun h => pagerankIteration_convergenceMatrix_nonsparsify p st h

/-- Witness for C6 at a concrete input. -/
theorem sparsification_marks_below_tolerance_witness :
    (0 : ℕ) < witnessParamsB.numberOfPages ∧
    (((witnessStateB.iterations ≠ 0 ∧
        witnessStateB.iterations % SPARSITY_INCREASE_ITERATION_PERIOD = 0) →
      ((pagerankIteration witnessParamsB witnessStateB).convergenceMatrix.getD
          0 false =
          (witnessStateB.convergenceMatrix.getD 0 false ||
            (!(witnessStateB.convergenceMatrix.getD 0 false) &&
              pageConvergedTest
                ((nextPagerankVector witnessParamsB witnessStateB).getD 0 0)
                (witnessStateB.pagerankVector.getD 0 0)
                witnessParamsB.convergenceCriterion)) ∧
        (witnessStateB.convergenceMatrix.getD 0 false = false →
          pageConvergedTest
              ((nextPagerankVector witnessParamsB witnessStateB).getD 0 0)
              (witnessStateB.pagerankVector.getD 0 0)
              witnessParamsB.convergenceCriterion = true →
          (pagerankIteration witnessParamsB
            witnessStateB).convergedPagerankVector.getD 0 0 =
            (nextPagerankVector witnessParamsB witnessStateB).getD 0 0))) ∧
    (¬(witnessStateB.iterations ≠ 0 ∧
        witnessStateB.iterations % SPARSITY_INCREASE_ITERATION_PERIOD = 0) →
      (pagerankIteration witnessParamsB witnessStateB).convergenceMatrix =
        witnessStateB.convergenceMatrix)) :=
  ⟨by norm_num [witnessParamsB],
    sparsification_marks_below_tolerance witnessParamsB witnessStateB 0
      (by norm_num [witnessParamsB])⟩

/-- Claim C8: the per-page convergence state is monotone: a set flag stays
set and its converged-rank entry is never rewritten afterwards; a page
that converges in this iteration gets its current rank snapshotted; under
the invariant that unconverged pages hold 0 in the converged-rank vector,
a page whose flag is still false after the iteration still holds 0; and
the initial driver state satisfies that invariant. -/
theorem convergence_state_monotone (p : Parameters) (st : PagerankState)
    (i : ℕ) (tm : CsrSparseMatrix) (v : List ℚ)
    (hi : i < p.numberOfPages) :
    (st.convergenceMatrix.getD i false = true →
      (pagerankIteration p st).convergenceMatrix.getD i false = true) ∧
    (st.convergenceMatrix.getD i false = true →
      (pagerankIteration p st).convergedPagerankVector.getD i 0 =
        st.convergedPagerankVector.getD i 0) ∧
    (st.convergenceMatrix.getD i false = false →
      (pagerankIteration p st).convergenceMatrix.getD i false = true →
      (pagerankIteration p st).convergedPagerankVector.getD i 0 =
        (pagerankIteration p st).pagerankVector.getD i 0) ∧
    (st.convergedPagerankVector.getD i 0 = 0 →
      (pagerankIteration p st).convergenceMatrix.getD i false = false →
      (pagerankIteration p st).convergedPagerankVector.getD i 0 = 0) ∧
    ((initialState p.numberOfPages tm v).convergenceMatrix.getD i false =
        false ∧
      (initialState p.numberOfPages tm v).convergedPagerankVector.getD i 0 =
        0) := by
  have hinit1 : (initialState p.numberOfPages tm v).convergenceMatrix.getD
      i false = false := by
    simp [initialState, List.getD_eq_getElem?_getD, List.getElem?_replicate,
      hi]
  have hinit2 : (initialState p.numberOfPages tm
      v).convergedPagerankVector.getD i 0 = 0 := by
    simp [initialState, List.getD_eq_getElem?_getD, List.getElem?_replicate,
      hi]
  by_cases h : st.iterations ≠ 0 ∧
      st.iterations % SPARSITY_INCREASE_ITERATION_PERIOD = 0
  · have hcm := pagerankIteration_convergenceMatrix_sparsify p st i h.1
      h.2 hi
    have hcv := pagerankIteration_convergedPagerankVector_sparsify p st i
      h.1 h.2 hi
    have hpv := pagerankIteration_pagerankVector p st
    refine ⟨fun hf => ?_, fun hf => ?_, fun hf hset => ?_,
      fun hzero hflag => ?_, hinit1, hinit2⟩
    · rw [hcm, hf]
      simp
    · rw [hcv, hf]
      simp
    · rw [hcm, hf] at hset
      simp only [Bool.false_or, Bool.not_false, Bool.true_and] at hset
      rw [hcv, hf, hpv]
      simp only [List.getD_eq_getElem?_getD] at hset
      simp [hset]
    · rw [hcm] at hflag
      rw [hcv]
      rcases Bool.or_eq_false_iff.mp hflag with ⟨_, hb⟩
      rw [hb]
      simpa using hzero
  · have hcm := pagerankIteration_convergenceMatrix_nonsparsify p st h
    have hcv := pagerankIteration_convergedPagerankVector_nonsparsify p st h
    refine ⟨fun hf => ?_, fun hf => ?_, fun hf hset => ?_,
      fun hzero hflag => ?_, hinit1, hinit2⟩
    · rw [hcm]
      exact hf
    · rw [hcv]
    · rw [hcm] at hset
      rw [hf] at hset
      exact absurd hset (by simp)
    · rw [hcv]
      exact hzero

/-- Witness for C8 at a concrete input. -/
theorem convergence_state_monotone_witness :
    (0 : ℕ) < witnessParamsB.numberOfPages ∧
    witnessStateB.convergedPagerankVector.getD 0 0 = 0 ∧
    ((initialState witnessParamsB.numberOfPages witnessMatrix
        witnessVector).convergenceMatrix.getD 0 false = false ∧
      (initialState witnessParamsB.numberOfPages witnessMatrix
        witnessVector).convergedPagerankVector.getD 0 0 = 0) :=
  ⟨by norm_num [witnessParamsB], by norm_num [witnessStateB],
    (convergence_state_monotone witnessParamsB witnessStateB 0 witnessMatrix
      witnessVector (by norm_num [witnessParamsB])).2.2.2.2⟩

lemma exampleInit_eq : exampleInit =
    (⟨[[], [(0, 1)]]⟩, [1/2, 1/2],
      { numberOfPages := 2, maxIterations := 1, convergenceCriterion := 1/4,
        dampingFactor := 17/20, realIterations := 0 }) := by
  norm_num [exampleInit, initSolver, generateNormalizedTransitionMatrix,
    transformToCSR, transposeSparseMatrix, weightedTemp, tempFromEdges,
    addElement, initCooSparseMatrix, maxPageIndex, pageOutdegree,
    exampleParams0, exampleEdges, List.filter_cons, List.filter_nil,
    beq_iff_eq, List.range, List.range.loop, List.replicate]

/-- Claim C1 (code-bug evidence): the C `pagerank` function receives the
`Parameters` record BY VALUE (line 23), so the assignment
`parameters.realIterations = iterations` at line 158 lands in the callee's
local copy, which is discarded at return.  On the example run the solver
completes 1 iteration and returns 1, the local copy's `realIterations`
holds 1, but the record the caller observes — the argument itself, here
the output of the `initialize` phase — still has `realIterations = 0`. -/
theorem pagerank_realIterations_not_observable :
    exampleInit.2.2.realIterations = 0 ∧
    (pagerank exampleInit.1 exampleInit.2.1 exampleInit.2.2 1).2.2 = 1 ∧
    (pagerank exampleInit.1 exampleInit.2.1
      exampleInit.2.2 1).2.1.realIterations = 1 := by
  rw [exampleInit_eq]
  norm_num [pagerank, pagerankLoop, pagerankIteration, checkedState, initialState,
    calculateNextPagerank, csrSparseMatrixVectorMultiplication, vectorNorm,
    pagerankDifferenceVector, sparsifyNewlyConverged, sparsifyMarkPhase,
    sparsifyRemovePhase, sparsifyProcessPage, pageConvergedTest,
    CONVERGENCE_CHECK_ITERATION_PERIOD, SPARSITY_INCREASE_ITERATION_PERIOD,
    List.filter_cons, List.filter_nil, beq_iff_eq, List.range,
    List.range.loop, List.replicate, abs_ite]

/-- Claim C3 counterexample: on the example graph the delta of the very
first convergence check is NOT the L1 distance between two copies of the
uniform starting vector: that distance (0) is strictly below the
tolerance, yet the first check leaves the convergence status false,
because the check actually compares the vector produced by the first
update against the uniform vector. -/
theorem firstCheck_not_self_comparison :
    vectorNorm (pagerankDifferenceVector exampleInit.2.1 exampleInit.2.1
        exampleInit.2.2.numberOfPages) <
      exampleInit.2.2.convergenceCriterion ∧
    (pagerankIteration exampleInit.2.2
      (initialState exampleInit.2.2.numberOfPages exampleInit.1
        exampleInit.2.1)).convergenceStatus = false := by
  rw [exampleInit_eq]
  norm_num [pagerankIteration, checkedState, initialState, calculateNextPagerank,
    csrSparseMatrixVectorMultiplication, vectorNorm,
    pagerankDifferenceVector, sparsifyNewlyConverged, sparsifyMarkPhase,
    sparsifyRemovePhase, sparsifyProcessPage, pageConvergedTest,
    CONVERGENCE_CHECK_ITERATION_PERIOD, SPARSITY_INCREASE_ITERATION_PERIOD,
    List.filter_cons, List.filter_nil, beq_iff_eq, List.range,
    List.range.loop, List.replicate, abs_ite]

/-- Claim C3 (amended): at iteration `t = 0` the global convergence check
is performed rather than skipped, and it compares the vector produced by
the first update against the initial starting vector: the status becomes
true exactly when the L1 distance between the first computed vector and
the starting vector is strictly below the tolerance. -/
theorem firstIteration_check_performed (p : Parameters)
    (st : PagerankState) (h0 : st.iterations = 0)
    (hs : st.convergenceStatus = false) :
    ((pagerankIteration p st).convergenceStatus = true ↔
      vectorNorm (pagerankDifferenceVector (nextPagerankVector p st)
        st.pagerankVector p.numberOfPages) < p.convergenceCriterion) := by
  rw [pagerankIteration_convergenceStatus]
  simp [h0, hs, nextPagerankVector, CONVERGENCE_CHECK_ITERATION_PERIOD]

/-- Witness for the amended C3 at a concrete input. -/
theorem firstIteration_check_performed_witness :
    witnessState.iterations = 0 ∧ witnessState.convergenceStatus = false ∧
    ((pagerankIteration witnessParams witnessState).convergenceStatus =
        true ↔
      vectorNorm (pagerankDifferenceVector
        (nextPagerankVector witnessParams witnessState)
        witnessState.pagerankVector witnessParams.numberOfPages) <
        witnessParams.convergenceCriterion) :=
  ⟨rfl, rfl, firstIteration_check_performed witnessParams witnessState
    rfl rfl⟩

lemma checkedState_iterations (p : Parameters) (st : PagerankState) :
    (checkedState p st).iterations = st.iterations := by
  simp [checkedState, apply_ite (fun s : PagerankState => s.iterations)]

lemma checkedState_convergenceMatrix (p : Parameters) (st : PagerankState) :
    (checkedState p st).convergenceMatrix = st.convergenceMatrix := by
  simp [checkedState, apply_ite (fun s : PagerankState => s.convergenceMatrix)]

lemma checkedState_pagerankVector (p : Parameters) (st : PagerankState) :
    (checkedState p st).pagerankVector = nextPagerankVector p st := by
  simp [checkedState, nextPagerankVector,
    apply_ite (fun s : PagerankState => s.pagerankVector)]

lemma checkedState_previousPagerankVector (p : Parameters)
    (st : PagerankState) :
    (checkedState p st).previousPagerankVector = st.pagerankVector := by
  simp [checkedState,
    apply_ite (fun s : PagerankState => s.previousPagerankVector)]

lemma checkedState_linksFromConvergedPages (p : Parameters)
    (st : PagerankState) :
    (checkedState p st).linksFromConvergedPages =
      st.linksFromConvergedPages := by
  simp [checkedState,
    apply_ite (fun s : PagerankState => s.linksFromConvergedPages)]

lemma mem_foldl_addElement_row (row : List (ℕ × ℚ)) (flags : List Bool)
    (coo : CooSparseMatrix) (i : ℕ) (e : CooElement)
    (he : e ∈ (row.foldl (fun c en =>
      if flags.getD en.1 false = false then addElement c en.2 i en.1
      else c) coo).elements) :
    e ∈ coo.elements ∨ flags.getD e.columnIndex false = false := by
  induction row generalizing coo with
  | nil => exact Or.inl he
  | cons en row ih =>
    simp only [List.foldl_cons] at he
    by_cases hc : flags.getD en.1 false = false
    · rw [if_pos hc] at he
      rcases ih _ he with hmem | hflag
      · simp only [addElement, List.mem_append, List.mem_singleton] at hmem
        rcases hmem with h | h
        · exact Or.inl h
        · subst h
          exact Or.inr hc
      · exact Or.inr hflag
    · rw [if_neg hc] at he
      exact ih _ he

lemma sparsifyProcessPage_links_mem (st : PagerankState) (n i : ℕ)
    (e : CooElement)
    (he : e ∈ (sparsifyProcessPage st n i).linksFromConvergedPages.elements) :
    e ∈ st.linksFromConvergedPages.elements ∨
      st.convergenceMatrix.getD e.columnIndex false = false := by
  simp only [sparsifyProcessPage] at he
  exact mem_foldl_addElement_row _ _ _ _ _ he

lemma removeFold_links_mem (l : List ℕ) (newly : List Bool) (n : ℕ)
    (st : PagerankState) (e : CooElement)
    (he : e ∈ (l.foldl (fun s i =>
      if newly.getD i false then sparsifyProcessPage s n i
      else s) st).linksFromConvergedPages.elements) :
    e ∈ st.linksFromConvergedPages.elements ∨
      st.convergenceMatrix.getD e.columnIndex false = false := by
  induction l generalizing st with
  | nil => exact Or.inl he
  | cons a l ih =>
    simp only [List.foldl_cons] at he
    by_cases hc : newly.getD a false = true
    · rw [if_pos hc] at he
      rcases ih _ he with h2 | h2
      · exact sparsifyProcessPage_links_mem st n a e h2
      · exact Or.inr h2
    · rw [if_neg hc] at he
      exact ih _ he

lemma sparsifyRemovePhase_links_mem (st : PagerankState) (newly : List Bool)
    (n : ℕ) (e : CooElement)
    (he : e ∈ (sparsifyRemovePhase st newly
      n).linksFromConvergedPages.elements) :
    e ∈ st.linksFromConvergedPages.elements ∨
      st.convergenceMatrix.getD e.columnIndex false = false :=
  removeFold_links_mem (List.range n) newly n st e he

/-- Claim C10: in each sparsification round the convergence flags of all
newly converged pages are set in the first pass, before any correction
edge is copied in the second pass; consequently no correction edge whose
destination is a page that converged in the same round (in particular,
an edge between two pages newly converged in the same round) is ever
added to the links-from-converged-pages matrix: every element of the
correction matrix whose column is such a page was already there before
the round. -/
theorem no_correction_edge_to_newly_converged (p : Parameters)
    (st : PagerankState) (j : ℕ) (e : CooElement)
    (h1 : st.iterations ≠ 0)
    (h2 : st.iterations % SPARSITY_INCREASE_ITERATION_PERIOD = 0)
    (hj : j < p.numberOfPages)
    (hflag : st.convergenceMatrix.getD j false = false)
    (htest : pageConvergedTest ((nextPagerankVector p st).getD j 0)
      (st.pagerankVector.getD j 0) p.convergenceCriterion = true)
    (he : e ∈ (pagerankIteration p st).linksFromConvergedPages.elements)
    (hcol : e.columnIndex = j) :
    e ∈ st.linksFromConvergedPages.elements := by
  have hcond : (checkedState p st).iterations ≠ 0 ∧
      (checkedState p st).iterations %
        SPARSITY_INCREASE_ITERATION_PERIOD = 0 := by
    rw [checkedState_iterations]
    exact ⟨h1, h2⟩
  have hlinks : (pagerankIteration p st).linksFromConvergedPages =
      (sparsifyRemovePhase
        (sparsifyMarkPhase (checkedState p st)
          (sparsifyNewlyConverged (checkedState p st) p.convergenceCriterion
            p.numberOfPages) p.numberOfPages)
        (sparsifyNewlyConverged (checkedState p st) p.convergenceCriterion
          p.numberOfPages) p.numberOfPages).linksFromConvergedPages := by
    simp only [pagerankIteration]
    rw [if_pos hcond]
  rw [hlinks] at he
  rcases sparsifyRemovePhase_links_mem _ _ _ _ he with hmem | hfl
  · rw [show (sparsifyMarkPhase (checkedState p st)
        (sparsifyNewlyConverged (checkedState p st) p.convergenceCriterion
          p.numberOfPages) p.numberOfPages).linksFromConvergedPages =
        (checkedState p st).linksFromConvergedPages from rfl,
      checkedState_linksFromConvergedPages] at hmem
    exact hmem
  · exfalso
    rw [hcol] at hfl
    have hmark : (sparsifyMarkPhase (checkedState p st)
        (sparsifyNewlyConverged (checkedState p st) p.convergenceCriterion
          p.numberOfPages) p.numberOfPages).convergenceMatrix.getD j false =
        true := by
      simp only [sparsifyMarkPhase]
      rw [getD_range_map _ _ _ _ hj]
      rw [checkedState_convergenceMatrix]
      rw [hflag]
      simp only [Bool.false_or]
      simp only [sparsifyNewlyConverged]
      rw [getD_range_map _ _ _ _ hj]
      rw [checkedState_convergenceMatrix, checkedState_pagerankVector,
        checkedState_previousPagerankVector, hflag, htest]
      rfl
    rw [hmark] at hfl
    exact absurd hfl (by simp)

/-- Witness for C10 at a concrete input: page 1 newly converges in the
round, and the pre-existing correction element with destination 1 is
still the only one with that destination afterwards. -/
theorem no_correction_edge_to_newly_converged_witness :
    witnessStateB.iterations ≠ 0 ∧
    witnessStateB.iterations % SPARSITY_INCREASE_ITERATION_PERIOD = 0 ∧
    (1 : ℕ) < witnessParamsB.numberOfPages ∧
    witnessStateB.convergenceMatrix.getD 1 false = false ∧
    pageConvergedTest
      ((nextPagerankVector witnessParamsB witnessStateB).getD 1 0)
      (witnessStateB.pagerankVector.getD 1 0)
      witnessParamsB.convergenceCriterion = true ∧
    (⟨1, 0, 1⟩ : CooElement) ∈ (pagerankIteration witnessParamsB
      witnessStateB).linksFromConvergedPages.elements ∧
    (⟨1, 0, 1⟩ : CooElement) ∈
      witnessStateB.linksFromConvergedPages.elements := by
  have hit : witnessStateB.iterations ≠ 0 := by norm_num [witnessStateB]
  have hmod : witnessStateB.iterations %
      SPARSITY_INCREASE_ITERATION_PERIOD = 0 := by
    norm_num [witnessStateB, SPARSITY_INCREASE_ITERATION_PERIOD]
  have hj : (1 : ℕ) < witnessParamsB.numberOfPages := by
    norm_num [witnessParamsB]
  have hflag : witnessStateB.convergenceMatrix.getD 1 false = false := by
    norm_num [witnessStateB]
  have htest : pageConvergedTest
      ((nextPagerankVector witnessParamsB witnessStateB).getD 1 0)
      (witnessStateB.pagerankVector.getD 1 0)
      witnessParamsB.convergenceCriterion = true := by
    norm_num [nextPagerankVector, witnessParamsB, witnessStateB,
      calculateNextPagerank, csrSparseMatrixVectorMultiplication,
      vectorNorm, pageConvergedTest, List.range, List.range.loop, abs_ite]
  have he : (⟨1, 0, 1⟩ : CooElement) ∈ (pagerankIteration witnessParamsB
      witnessStateB).linksFromConvergedPages.elements := by
    norm_num [pagerankIteration, checkedState, witnessParamsB,
      witnessStateB, calculateNextPagerank,
      csrSparseMatrixVectorMultiplication, vectorNorm,
      pagerankDifferenceVector, sparsifyNewlyConverged, sparsifyMarkPhase,
      sparsifyRemovePhase, sparsifyProcessPage, pageConvergedTest,
      addElement, cooSparseMatrixVectorMultiplication, zeroOutRow,
      zeroOutColumn, CONVERGENCE_CHECK_ITERATION_PERIOD,
      SPARSITY_INCREASE_ITERATION_PERIOD, List.filter_cons, List.filter_nil,
      beq_iff_eq, List.range, List.range.loop, List.replicate, abs_ite]
  exact ⟨hit, hmod, hj, hflag, htest, he,
    no_correction_edge_to_newly_converged witnessParamsB witnessStateB 1
      ⟨1, 0, 1⟩ hit hmod hj hflag htest he rfl⟩

lemma foldl_addElement_elements (edges : List (ℕ × ℕ))
    (m : CooSparseMatrix) :
    (edges.foldl (fun acc e => addElement acc 1 e.1 e.2) m).elements =
      m.elements ++ edges.map (fun e => ⟨1, e.1, e.2⟩) := by
  induction edges generalizing m with
  | nil => simp
  | cons e edges ih =>
    simp only [List.foldl_cons, List.map_cons]
    rw [ih]
    simp [addElement]

lemma tempFromEdges_elements (edges : List (ℕ × ℕ)) :
    (tempFromEdges edges).elements =
      edges.map (fun e => ⟨1, e.1, e.2⟩) := by
  rw [tempFromEdges, foldl_addElement_elements]
  simp [initCooSparseMatrix]

lemma transposedWeighted_elements (edges : List (ℕ × ℕ)) :
    (transposeSparseMatrix (weightedTemp edges)).elements =
      edges.map (fun e =>
        ⟨1 / (pageOutdegree edges e.1 : ℚ), e.2, e.1⟩) := by
  simp only [transposeSparseMatrix, weightedTemp, tempFromEdges_elements,
    List.map_map]
  rfl

lemma le_foldl_max (l : List (ℕ × ℕ)) (a : ℕ) :
    a ≤ l.foldl (fun m e => max (max m e.1) e.2) a := by
  induction l generalizing a with
  | nil => exact le_refl a
  | cons e l ih =>
    simp only [List.foldl_cons]
    exact le_trans (le_trans (le_max_left a e.1) (le_max_left _ e.2))
      (ih (max (max a e.1) e.2))

lemma mem_le_foldl_max (l : List (ℕ × ℕ)) (a : ℕ) (e : ℕ × ℕ)
    (he : e ∈ l) :
    e.1 ≤ l.foldl (fun m x => max (max m x.1) x.2) a ∧
    e.2 ≤ l.foldl (fun m x => max (max m x.1) x.2) a := by
  induction l generalizing a with
  | nil => cases he
  | cons b l ih =>
    simp only [List.foldl_cons]
    rcases List.mem_cons.mp he with h | h
    · subst h
      constructor
      · exact le_trans (le_trans (le_max_right a e.1) (le_max_left _ e.2))
          (le_foldl_max l _)
      · exact le_trans (le_max_right (max a e.1) e.2) (le_foldl_max l _)
    · exact ih _ h

lemma mem_le_maxPageIndex (edges : List (ℕ × ℕ)) (e : ℕ × ℕ)
    (he : e ∈ edges) :
    e.1 ≤ maxPageIndex edges ∧ e.2 ≤ maxPageIndex edges :=
  mem_le_foldl_max edges 0 e he

lemma list_sum_map_add {α : Type} (l : List α) (f g : α → ℚ) :
    (l.map (fun x => f x + g x)).sum = (l.map f).sum + (l.map g).sum := by
  induction l with
  | nil => simp
  | cons a l ih =>
    simp only [List.map_cons, List.sum_cons, ih]
    ring

lemma sum_map_ite_cons {α : Type} (b : Bool) (x : α) (l : List α)
    (f : α → ℚ) :
    (((if b = true then x :: l else l).map f)).sum =
      (if b = true then f x else 0) + (l.map f).sum := by
  cases b <;> simp

lemma sum_range_single (n k : ℕ) (q : ℚ) :
    ((List.range n).map (fun r => if k = r then q else 0)).sum =
      if k < n then q else 0 := by
  induction n with
  | zero => simp
  | succ n ih =>
    rw [List.range_succ, List.map_append, List.sum_append, ih]
    by_cases h : k < n
    · have : k ≠ n := by omega
      simp [h, this, Nat.lt_succ_of_lt h]
    · by_cases h2 : k = n
      · simp [h, h2, Nat.lt_succ_self]
      · have : ¬k < n + 1 := by omega
        simp [h, h2, this]

lemma sum_range_indicator (n k : ℕ) (q : ℚ) (P : Prop) [Decidable P] :
    ((List.range n).map (fun r => if k = r ∧ P then q else 0)).sum =
      if k < n ∧ P then q else 0 := by
  by_cases hP : P
  · simp only [hP, and_true]
    exact sum_range_single n k q
  · simp [hP]


lemma row_contribution (X : List CooElement) (c : ℕ) :
    ((X.map (fun e => (e.columnIndex, e.value))).filter
      (fun en => en.1 == c)).map (fun en => en.2) =
    (X.filter (fun e => e.columnIndex == c)).map (fun e => e.value) := by
  induction X with
  | nil => simp
  | cons e X ih =>
    simp only [List.map_cons, List.filter_cons]
    by_cases h : e.columnIndex = c
    · simp [h, ih]
    · simp [h, ih]

lemma sum_range_indicator2 (n k : ℕ) (q : ℚ) (P : Prop) [Decidable P] :
    ((List.range n).map (fun r => if P ∧ k = r then q else 0)).sum =
      if k < n ∧ P then q else 0 := by
  by_cases hP : P
  · simp only [hP, true_and, and_true]
    exact sum_range_single n k q
  · simp [hP]

lemma colSum_aux (L : List CooElement) (n c : ℕ) :
    ((List.range n).map (fun r =>
      (((L.filter (fun e => e.rowIndex == r)).filter
        (fun e => e.columnIndex == c)).map (fun e => e.value)).sum)).sum =
    (L.map (fun e =>
      if e.rowIndex < n ∧ e.columnIndex = c then e.value else 0)).sum := by
  induction L with
  | nil =>
    simp
  | cons e L ih =>
    simp only [List.filter_filter] at ih ⊢
    simp only [List.filter_cons]
    simp only [sum_map_ite_cons]
    simp only [list_sum_map_add]
    simp only [Bool.and_eq_true, beq_iff_eq]
    rw [sum_range_indicator2 n e.rowIndex e.value (e.columnIndex = c)]
    rw [ih]
    simp only [List.map_cons, List.sum_cons]

lemma colSum_transform (L : List CooElement) (n c : ℕ) :
    csrColumnSum (transformToCSR ⟨L⟩ n) c =
      (L.map (fun e =>
        if e.rowIndex < n ∧ e.columnIndex = c then e.value else 0)).sum := by
  simp only [csrColumnSum, transformToCSR, List.map_map,
    Function.comp_def, row_contribution]
  exact colSum_aux L n c

lemma sum_map_ite_outdeg (edges : List (ℕ × ℕ)) (c : ℕ) (q : ℚ) :
    (edges.map (fun e => if e.1 = c then q else 0)).sum =
      (pageOutdegree edges c : ℚ) * q := by
  induction edges with
  | nil => simp [pageOutdegree]
  | cons e edges ih =>
    simp only [List.map_cons, List.sum_cons, ih, pageOutdegree,
      List.filter_cons]
    by_cases h : e.1 = c
    · simp only [h, if_pos rfl, beq_self_eq_true, if_true]
      push_cast [List.length_cons]
      ring
    · have hb : (e.1 == c) = false := by simp [h]
      simp [h, hb, pageOutdegree]

/-- Claim C9 (amended): immediately after construction, for every page
with at least one outgoing edge, the sum of the stored entries in that
page's COLUMN of the stored (transposed) matrix equals 1 — the
row-stochastic invariant holds for the rows of the pre-transposition
matrix, which the transpose turns into columns. -/
theorem transition_column_sum_one (edges : List (ℕ × ℕ)) (c : ℕ)
    (h : 0 < pageOutdegree edges c) :
    csrColumnSum (generateNormalizedTransitionMatrix edges).1 c = 1 := by
  have h2 : transposeSparseMatrix (weightedTemp edges) =
      ⟨edges.map (fun e =>
        ⟨1 / (pageOutdegree edges e.1 : ℚ), e.2, e.1⟩)⟩ := by
    rw [← transposedWeighted_elements edges]
  rw [generateNormalizedTransitionMatrix]
  simp only []
  rw [h2, colSum_transform, List.map_map]
  simp only [Function.comp_def]
  rw [List.map_congr_left (g := fun e : ℕ × ℕ =>
      if e.1 = c then 1 / (pageOutdegree edges c : ℚ) else 0) ?hcong]
  case hcong =>
    intro e he
    have hle := (mem_le_maxPageIndex edges e he).2
    by_cases hc : e.1 = c
    · simp [hc, Nat.lt_succ_of_le hle]
    · simp [hc]
  rw [sum_map_ite_outdeg]
  have hne : (pageOutdegree edges c : ℚ) ≠ 0 := by
    exact_mod_cast Nat.pos_iff_ne_zero.mp h
  exact mul_one_div_cancel hne

/-- Witness for the amended C9 at a concrete input. -/
theorem transition_column_sum_one_witness :
    0 < pageOutdegree fanOutEdges 0 ∧
    csrColumnSum (generateNormalizedTransitionMatrix fanOutEdges).1 0 = 1 :=
  ⟨by norm_num [pageOutdegree, fanOutEdges, List.filter_cons,
      List.filter_nil],
    transition_column_sum_one fanOutEdges 0
      (by norm_num [pageOutdegree, fanOutEdges, List.filter_cons,
        List.filter_nil])⟩

/-- Claim C9 counterexample: on the edge list `[(0,1), (0,2)]` the stored
(post-transpose) matrix has a non-empty row 1 holding the single entry
1/2, whose row sum is 1/2 and not 1: the per-ROW sums of the stored
matrix are not the row-stochastic quantity. -/
theorem transition_row_sum_not_one :
    csrRowSum (generateNormalizedTransitionMatrix fanOutEdges).1 1 = 1/2 ∧
    ((generateNormalizedTransitionMatrix fanOutEdges).1.rows.getD 1
      []).length = 1 ∧
    ¬csrRowSum (generateNormalizedTransitionMatrix fanOutEdges).1 1 = 1 := by
  norm_num [csrRowSum, generateNormalizedTransitionMatrix, transformToCSR,
    transposeSparseMatrix, weightedTemp, tempFromEdges, addElement,
    initCooSparseMatrix, maxPageIndex, pageOutdegree, fanOutEdges,
    List.filter_cons, List.filter_nil, beq_iff_eq, List.range,
    List.range.loop]
